import Mathlib

/-!
Formal model of the headless-markets quorum consensus and token-economics
engine.

Part 1 embeds the Vendure collaboration plugin
(collaboration.service.ts: createCollaboration, recordVote,
updateTokenLaunch, markGraduated, and the find helpers) as pure state
transformers over a Ledger of Collaboration and Vote rows.  Entity ids,
agent ids, quorum ids, token addresses, token names and symbols, and
transaction hashes are opaque keys; they are modeled as naturals.
Timestamps (new Date() in the source) are passed in as an explicit clock
argument.  TypeORM save on an entity with an id updates the row with that
id; save on a fresh entity inserts a row.  The source wraps none of these
methods in a transaction, so a write that happens before a thrown
TypeError stays persisted; the nullCrash result constructor records the
ledger as of the crash.

Part 2 embeds the BondingCurveToken contract
(src/contracts/core/BondingCurve.sol).  Solidity 0.8 checked arithmetic
never wraps: an overflowing operation reverts.  Amounts here are modeled
as unbounded naturals; every subtraction in the source is either guarded
by an explicit require in the contract, guarded by a checked-subtraction
error case in the model (claimAgentFees), or provably never truncates
(the fee remainder in buy).  External calls are abstracted by their
balance effect: a value transfer succeeds exactly when the contract
balance covers it, and the Uniswap router and pair bookkeeping of
graduation is outside the model.
-/

namespace HeadlessMarkets

/-! ## Part 1: collaboration service (src/plugins/collaboration) -/

inductive CollabStatus where
  | pending
  | voting
  | active
  | completed
  | failed
deriving DecidableEq

/-- Row of the collaboration table (collaboration.entity.ts). -/
structure Collab where
  id : Nat
  quorumId : Nat
  agents : List Nat
  status : CollabStatus
  tokenAddress : Option Nat
  tokenName : Option Nat
  tokenSymbol : Option Nat
  graduated : Bool
  graduatedAt : Option Nat
  votesReceived : Nat
  requiredVotes : Nat
deriving DecidableEq

/-- Row of the vote table (vote.entity.ts).  The collaboration foreign key
is an Option because recordVote stores whatever findOne returned, null
included. -/
structure Vote where
  collaboration : Option Nat
  agent : Nat
  transactionHash : Nat
  votedAt : Nat
deriving DecidableEq

/-- The persisted state owned by the collaboration plugin. -/
structure Ledger where
  collaborations : List Collab
  votes : List Vote
deriving DecidableEq

def findCollab (s : Ledger) (id : Nat) : Option Collab :=
  s.collaborations.find? (fun c => c.id == id)

def findByQuorumId (s : Ledger) (q : Nat) : Option Collab :=
  s.collaborations.find? (fun c => c.quorumId == q)

def findByTokenAddress (s : Ledger) (a : Nat) : Option Collab :=
  s.collaborations.find? (fun c => c.tokenAddress == some a)

/-- TypeORM save of an entity that already has an id: update the row. -/
def saveCollab (s : Ledger) (c : Collab) : Ledger :=
  { s with collaborations := s.collaborations.map (fun d => if d.id == c.id then c else d) }

/-- createCollaboration: fresh row, status pending, requiredVotes =
participant count, votesReceived = 0.  The database-generated id is
modeled as the current row count. -/
def createCollaboration (s : Ledger) (quorumId : Nat) (agentIds : List Nat) :
    Ledger × Collab :=
  let c : Collab :=
    { id := s.collaborations.length
      quorumId := quorumId
      agents := agentIds
      status := CollabStatus.pending
      tokenAddress := none
      tokenName := none
      tokenSymbol := none
      graduated := false
      graduatedAt := none
      votesReceived := 0
      requiredVotes := agentIds.length }
  ({ s with collaborations := s.collaborations ++ [c] }, c)

/-- Result of recordVote.  nullCrash is the TypeError thrown when the
collaboration lookup returned null and the code dereferences it; the vote
row was already saved at that point, so the crashed state carries it. -/
inductive RVResult where
  | ok (s : Ledger) (v : Vote)
  | nullCrash (s : Ledger)
deriving DecidableEq

def rvState : RVResult → Ledger
  | RVResult.ok s _ => s
  | RVResult.nullCrash s => s

def rvIsOk : RVResult → Bool
  | RVResult.ok _ _ => true
  | RVResult.nullCrash _ => false

/-- recordVote, exactly as in collaboration.service.ts: fetch the
collaboration, unconditionally save a new Vote row, then increment
votesReceived and flip pending state to voting when the count equals
requiredVotes.  There is no duplicate check on (collaboration, agent),
no duplicate check on transactionHash, and no membership check of the
agent against the participant set. -/
def recordVote (s : Ledger) (collaborationId agentId transactionHash now : Nat) :
    RVResult :=
  let collab := findCollab s collaborationId
  let v : Vote :=
    { collaboration := collab.map Collab.id
      agent := agentId
      transactionHash := transactionHash
      votedAt := now }
  let s1 : Ledger := { s with votes := s.votes ++ [v] }
  match collab with
  | none => RVResult.nullCrash s1
  | some c =>
      let n := c.votesReceived + 1
      let c1 : Collab :=
        { c with
          votesReceived := n
          status := if n == c.requiredVotes then CollabStatus.voting else c.status }
      RVResult.ok (saveCollab s1 c1) v

/-- Result of updateTokenLaunch / markGraduated. -/
inductive SvcResult where
  | ok (s : Ledger) (c : Collab)
  | nullCrash (s : Ledger)
deriving DecidableEq

def svcState : SvcResult → Ledger
  | SvcResult.ok s _ => s
  | SvcResult.nullCrash s => s

/-- updateTokenLaunch, as in the source: find by quorumId and overwrite
tokenAddress, tokenName, tokenSymbol unconditionally, then set status to
active.  No write-once guard. -/
def updateTokenLaunch (s : Ledger) (quorumId tokenAddress tokenName tokenSymbol : Nat) :
    SvcResult :=
  match findByQuorumId s quorumId with
  | none => SvcResult.nullCrash s
  | some c =>
      let c1 : Collab :=
        { c with
          tokenAddress := some tokenAddress
          tokenName := some tokenName
          tokenSymbol := some tokenSymbol
          status := CollabStatus.active }
      SvcResult.ok (saveCollab s c1) c1

/-- markGraduated, as in the source: find by tokenAddress, set graduated,
stamp graduatedAt with the current clock, set status completed.  The
success-rate recomputation it triggers touches only product custom
fields, which are outside this ledger.  No already-graduated guard. -/
def markGraduated (s : Ledger) (tokenAddress now : Nat) : SvcResult :=
  match findByTokenAddress s tokenAddress with
  | none => SvcResult.nullCrash s
  | some c =>
      let c1 : Collab :=
        { c with
          graduated := true
          graduatedAt := some now
          status := CollabStatus.completed }
      SvcResult.ok (saveCollab s c1) c1

/-- Votes recorded against a given collaboration id. -/
def votesFor (s : Ledger) (cid : Nat) : List Vote :=
  s.votes.filter (fun v => v.collaboration == some cid)

/-- Number of distinct agents with a recorded vote for the collaboration. -/
def distinctVoterCount (s : Ledger) (cid : Nat) : Nat :=
  ((votesFor s cid).map Vote.agent).dedup.length

/-- A pending three-agent collaboration, as produced by
createCollaboration for participants 10, 11, 12. -/
def demoCollab : Collab :=
  { id := 1
    quorumId := 1
    agents := [10, 11, 12]
    status := CollabStatus.pending
    tokenAddress := none
    tokenName := none
    tokenSymbol := none
    graduated := false
    graduatedAt := none
    votesReceived := 0
    requiredVotes := 3 }

def demoLedger : Ledger :=
  { collaborations := [demoCollab], votes := [] }

/-- C1: delivering the same vote event (agent 10, transaction hash 100)
twice through recordVote creates two Vote rows and drives votesReceived
to 2 while only one distinct agent has voted, so votesReceived does not
equal the distinct-voter count under duplicate delivery. -/
theorem recordVote_duplicate_double_counts :
    distinctVoterCount (rvState (recordVote (rvState (recordVote demoLedger 1 10 100 5)) 1 10 100 6)) 1 = 1 ∧
    (findCollab (rvState (recordVote (rvState (recordVote demoLedger 1 10 100 5)) 1 10 100 6)) 1).map Collab.votesReceived = some 2 ∧
    (votesFor (rvState (recordVote (rvState (recordVote demoLedger 1 10 100 5)) 1 10 100 6)) 1).length = 2 := by
  decide

/-- C2: recordVote accepts agent 99, who is not in the fixed participant
set [10, 11, 12]: it succeeds, persists the vote, and increments
votesReceived to 1 instead of failing with UnknownParticipant and
leaving the state unchanged. -/
theorem recordVote_accepts_nonparticipant :
    rvIsOk (recordVote demoLedger 1 99 777 1) = true ∧
    demoCollab.agents.contains 99 = false ∧
    (findCollab (rvState (recordVote demoLedger 1 99 777 1)) 1).map Collab.votesReceived = some 1 ∧
    (votesFor (rvState (recordVote demoLedger 1 99 777 1)) 1).length = 1 := by
  decide

/-- C6: two TokenLaunched deliveries for quorum 1 with different token
addresses: the second overwrites the stored token identity (address 500
becomes 600) instead of being rejected as a no-op. -/
theorem updateTokenLaunch_overwrites_token_identity :
    (findCollab (svcState (updateTokenLaunch demoLedger 1 500 21 22)) 1).map Collab.tokenAddress = some (some 500) ∧
    (findCollab (svcState (updateTokenLaunch (svcState (updateTokenLaunch demoLedger 1 500 21 22)) 1 600 31 32)) 1).map Collab.tokenAddress = some (some 600) ∧
    (findCollab (svcState (updateTokenLaunch (svcState (updateTokenLaunch demoLedger 1 500 21 22)) 1 600 31 32)) 1).map Collab.tokenName = some (some 31) := by
  decide

/-- C7: with participants [10, 11, 12], the vote sequence agent 10
(hash 101), agent 10 again (hash 102), agent 11 (hash 103) drives
votesReceived to requiredVotes and moves the status to voting although
agent 12 never voted: a single missing vote does not block the
transition, because duplicates are counted. -/
theorem recordVote_reaches_voting_without_unanimity :
    (findCollab (rvState (recordVote (rvState (recordVote (rvState (recordVote demoLedger 1 10 101 1)) 1 10 102 2)) 1 11 103 3)) 1).map Collab.status = some CollabStatus.voting ∧
    distinctVoterCount (rvState (recordVote (rvState (recordVote (rvState (recordVote demoLedger 1 10 101 1)) 1 10 102 2)) 1 11 103 3)) 1 = 2 ∧
    (findCollab (rvState (recordVote (rvState (recordVote (rvState (recordVote demoLedger 1 10 101 1)) 1 10 102 2)) 1 11 103 3)) 1).map Collab.requiredVotes = some 3 := by
  decide

/-- An active collaboration whose token (address 7) has launched, for
the graduation-replay scenario. -/
def launchedCollab : Collab :=
  { id := 1
    quorumId := 1
    agents := [10, 11, 12]
    status := CollabStatus.active
    tokenAddress := some 7
    tokenName := some 21
    tokenSymbol := some 22
    graduated := false
    graduatedAt := none
    votesReceived := 3
    requiredVotes := 3 }

def launchedLedger : Ledger :=
  { collaborations := [launchedCollab], votes := [] }

/-- C9: the first markGraduated for token 7 at time 100 stamps
graduatedAt = 100 and completes the collaboration, but redelivering the
graduation event at time 200 overwrites graduatedAt with 200: replay is
not a no-op and the first observation is lost. -/
theorem markGraduated_overwrites_graduatedAt :
    (findCollab (svcState (markGraduated launchedLedger 7 100)) 1).map Collab.graduatedAt = some (some 100) ∧
    (findCollab (svcState (markGraduated launchedLedger 7 100)) 1).map Collab.status = some CollabStatus.completed ∧
    (findCollab (svcState (markGraduated (svcState (markGraduated launchedLedger 7 100)) 7 200)) 1).map Collab.graduatedAt = some (some 200) := by
  decide

/-! ## Part 2: BondingCurveToken (src/contracts/core/BondingCurve.sol) -/

def GRADUATION_THRESHOLD : Nat := 10 * 10 ^ 18
def INITIAL_PRICE : Nat := 10 ^ 13
def PRICE_INCREMENT : Nat := 1
def PLATFORM_FEE_BPS : Nat := 3000
def AGENT_FEE_BPS : Nat := 1000
def LIQUIDITY_BPS : Nat := 6000
def BPS_DIVISOR : Nat := 10000

deriving instance DecidableEq for Except

/-- Contract state.  quorumMembers is fixed by the constructor;
balances is the ERC20 balance mapping as an association list;
ethBalance is address(this).balance. -/
structure CurveState where
  quorumMembers : List Nat
  balances : List (Nat × Nat)
  totalSupply : Nat
  totalETHRaised : Nat
  liquidityReserve : Nat
  graduated : Bool
  ethBalance : Nat
deriving DecidableEq

/-- ERC20 balanceOf on the association list. -/
def balOf (bs : List (Nat × Nat)) (a : Nat) : Nat :=
  ((bs.find? (fun p => p.1 == a)).map Prod.snd).getD 0

def setBal (bs : List (Nat × Nat)) (a v : Nat) : List (Nat × Nat) :=
  if bs.any (fun p => p.1 == a) then
    bs.map (fun p => if p.1 == a then (a, v) else p)
  else
    bs ++ [(a, v)]

/-- The contract itself (feeRecipients.agentTreasury = address(this)). -/
def CONTRACT_ADDR : Nat := 0

/-- Revert reasons of the contract, one per require. -/
inductive CurveErr where
  | alreadyGraduated
  | mustSendETH
  | invalidTokenAmount
  | platformTransferFailed
  | mustSellPositive
  | insufficientBalance
  | exceedsSupply
  | invalidETHAmount
  | insufficientLiquidity
  | sellTransferFailed
  | graduationTransferFailed
  | thresholdNotReached
  | notQuorumMember
  | noFeesToClaim
  | insufficientFees
  | balanceUnderflow
deriving DecidableEq

/-- getCurrentPrice: INITIAL_PRICE + (totalSupply / 1e18) * PRICE_INCREMENT. -/
def getCurrentPrice (s : CurveState) : Nat :=
  INITIAL_PRICE + (s.totalSupply / 10 ^ 18) * PRICE_INCREMENT

/-- calculatePurchaseReturn: tokens for a given ETH amount at the
pre-trade price. -/
def calculatePurchaseReturn (s : CurveState) (ethAmount : Nat) : Nat :=
  if ethAmount == 0 then 0
  else ethAmount * 10 ^ 18 / getCurrentPrice s

/-- calculateSaleReturn: ETH for a given token amount, capped at the
liquidity reserve; reverts when tokenAmount exceeds totalSupply. -/
def calculateSaleReturn (s : CurveState) (tokenAmount : Nat) : Except CurveErr Nat :=
  if tokenAmount == 0 then Except.ok 0
  else if s.totalSupply < tokenAmount then Except.error CurveErr.exceedsSupply
  else
    let ethAmount := tokenAmount * getCurrentPrice s / 10 ^ 18
    Except.ok (if s.liquidityReserve < ethAmount then s.liquidityReserve else ethAmount)

/-- The three fee parts computed in buy. -/
def platformFeeOf (ethIn : Nat) : Nat := ethIn * PLATFORM_FEE_BPS / BPS_DIVISOR

def agentFeeOf (ethIn : Nat) : Nat := ethIn * AGENT_FEE_BPS / BPS_DIVISOR

def liquidityAmountOf (ethIn : Nat) : Nat :=
  ethIn - platformFeeOf ethIn - agentFeeOf ethIn

/-- The state effect of _graduate: set the one-way flag, mint
totalSupply / 2 extra tokens to the contract for the pool, and send the
reserve ETH into the Uniswap pair.  Pair creation and LP-token burning
have no footprint in this state. -/
def graduateStep (s : CurveState) : CurveState :=
  { s with
    graduated := true
    totalSupply := s.totalSupply + s.totalSupply / 2
    balances := setBal s.balances CONTRACT_ADDR (balOf s.balances CONTRACT_ADDR + s.totalSupply / 2)
    ethBalance := s.ethBalance - s.liquidityReserve }

/-- buy: require not graduated and a positive ETH amount, convert at the
pre-trade price, split fees (the platform share leaves the contract, the
agent share stays, the remainder joins the reserve), mint, and graduate
on the first crossing of the threshold.  The addLiquidityETH value
transfer inside _graduate succeeds only if the contract balance covers
the reserve. -/
def buy (s : CurveState) (sender ethIn : Nat) : Except CurveErr CurveState :=
  if s.graduated then Except.error CurveErr.alreadyGraduated
  else if ethIn == 0 then Except.error CurveErr.mustSendETH
  else
    let tokenAmount := calculatePurchaseReturn s ethIn
    if tokenAmount == 0 then Except.error CurveErr.invalidTokenAmount
    else
      let s1 : CurveState :=
        { s with
          ethBalance := s.ethBalance + ethIn - platformFeeOf ethIn
          liquidityReserve := s.liquidityReserve + liquidityAmountOf ethIn
          totalETHRaised := s.totalETHRaised + ethIn
          totalSupply := s.totalSupply + tokenAmount
          balances := setBal s.balances sender (balOf s.balances sender + tokenAmount) }
      if GRADUATION_THRESHOLD ≤ s1.totalETHRaised ∧ s.graduated = false then
        if s1.ethBalance < s1.liquidityReserve then
          Except.error CurveErr.graduationTransferFailed
        else Except.ok (graduateStep s1)
      else Except.ok s1

/-- sell: require not graduated, a positive amount and a sufficient token
balance; pay out the capped sale return from the reserve. -/
def sell (s : CurveState) (sender tokenAmount : Nat) : Except CurveErr CurveState :=
  if s.graduated then Except.error CurveErr.alreadyGraduated
  else if tokenAmount == 0 then Except.error CurveErr.mustSellPositive
  else if balOf s.balances sender < tokenAmount then Except.error CurveErr.insufficientBalance
  else
    match calculateSaleReturn s tokenAmount with
    | Except.error e => Except.error e
    | Except.ok ethAmount =>
        if ethAmount == 0 then Except.error CurveErr.invalidETHAmount
        else if s.liquidityReserve < ethAmount then Except.error CurveErr.insufficientLiquidity
        else if s.ethBalance < ethAmount then Except.error CurveErr.sellTransferFailed
        else
          Except.ok
            { s with
              balances := setBal s.balances sender (balOf s.balances sender - tokenAmount)
              totalSupply := s.totalSupply - tokenAmount
              liquidityReserve := s.liquidityReserve - ethAmount
              ethBalance := s.ethBalance - ethAmount }

/-- graduate(): the manual trigger re-checks the same requires as the
automatic path. -/
def graduateExt (s : CurveState) : Except CurveErr CurveState :=
  if s.graduated then Except.error CurveErr.alreadyGraduated
  else if s.totalETHRaised < GRADUATION_THRESHOLD then Except.error CurveErr.thresholdNotReached
  else if s.ethBalance < s.liquidityReserve then Except.error CurveErr.graduationTransferFailed
  else Except.ok (graduateStep s)

/-- claimAgentFees: quorum members split the balance above the reserve
equally; the Solidity 0.8 checked subtraction reverts when the balance
is below the reserve.  On success the payout also returned. -/
def claimAgentFees (s : CurveState) (sender : Nat) : Except CurveErr (CurveState × Nat) :=
  if s.quorumMembers.contains sender = false then Except.error CurveErr.notQuorumMember
  else if s.ethBalance < s.liquidityReserve then Except.error CurveErr.balanceUnderflow
  else
    let totalAgentFees := s.ethBalance - s.liquidityReserve
    if totalAgentFees == 0 then Except.error CurveErr.noFeesToClaim
    else
      let feePerAgent := totalAgentFees / s.quorumMembers.length
      if feePerAgent == 0 then Except.error CurveErr.insufficientFees
      else Except.ok ({ s with ethBalance := s.ethBalance - feePerAgent }, feePerAgent)

/-- One external call against the contract. -/
inductive Op where
  | buy (sender ethIn : Nat)
  | sell (sender tokenAmount : Nat)
  | claim (sender : Nat)
  | graduateOp
deriving DecidableEq

/-- EVM semantics of a call: a revert leaves the state unchanged. -/
def applyOp (s : CurveState) (op : Op) : CurveState :=
  match op with
  | Op.buy a v =>
      match buy s a v with
      | Except.ok s1 => s1
      | Except.error _ => s
  | Op.sell a t =>
      match sell s a t with
      | Except.ok s1 => s1
      | Except.error _ => s
  | Op.claim a =>
      match claimAgentFees s a with
      | Except.ok (s1, _) => s1
      | Except.error _ => s
  | Op.graduateOp =>
      match graduateExt s with
      | Except.ok s1 => s1
      | Except.error _ => s

def runOps (s : CurveState) (ops : List Op) : CurveState :=
  ops.foldl applyOp s

/-- State right after the constructor: every counter zero, not
graduated, no tokens, no ETH. -/
def deployState (members : List Nat) : CurveState :=
  { quorumMembers := members
    balances := []
    totalSupply := 0
    totalETHRaised := 0
    liquidityReserve := 0
    graduated := false
    ethBalance := 0 }

/-- Run a trace accumulating the total agent fees paid out by successful
claims and the total agent fees accrued by successful buys. -/
def runAcc (s : CurveState) (claimed accrued : Nat) : List Op → CurveState × Nat × Nat
  | [] => (s, claimed, accrued)
  | op :: ops =>
      match op with
      | Op.buy a v =>
          match buy s a v with
          | Except.ok s1 => runAcc s1 claimed (accrued + agentFeeOf v) ops
          | Except.error _ => runAcc s claimed accrued ops
      | Op.claim a =>
          match claimAgentFees s a with
          | Except.ok (s1, paid) => runAcc s1 (claimed + paid) accrued ops
          | Except.error _ => runAcc s claimed accrued ops
      | _ => runAcc (applyOp s op) claimed accrued ops

/-! ## Theorems about the bonding curve -/

theorem fee_parts_le (ethIn : Nat) : platformFeeOf ethIn + agentFeeOf ethIn ≤ ethIn := by
  unfold platformFeeOf agentFeeOf PLATFORM_FEE_BPS AGENT_FEE_BPS BPS_DIVISOR
  omega

theorem fee_sum (ethIn : Nat) :
    platformFeeOf ethIn + agentFeeOf ethIn + liquidityAmountOf ethIn = ethIn := by
  unfold liquidityAmountOf platformFeeOf agentFeeOf PLATFORM_FEE_BPS AGENT_FEE_BPS BPS_DIVISOR
  omega

/-- C4: for every purchase amount the fee parts computed in buy satisfy
platformFee + agentFee + liquidityAmount = ethIn exactly, with the
liquidity part defined as the remainder. -/
theorem fee_split_exact (ethIn : Nat) (h : 0 < ethIn) :
    platformFeeOf ethIn + agentFeeOf ethIn + liquidityAmountOf ethIn = ethIn ∧
    liquidityAmountOf ethIn = ethIn - platformFeeOf ethIn - agentFeeOf ethIn :=
  ⟨fee_sum ethIn, rfl⟩

/-- Witness for C4 at 1 wei, at an exact multiple of the divisor, and at
a large amount. -/
theorem fee_split_exact_witness :
    ((0 : Nat) < 1 ∧ platformFeeOf 1 + agentFeeOf 1 + liquidityAmountOf 1 = 1) ∧
    ((0 : Nat) < 10000 ∧ platformFeeOf 10000 + agentFeeOf 10000 + liquidityAmountOf 10000 = 10000) ∧
    ((0 : Nat) < 10 ^ 30 ∧
      platformFeeOf (10 ^ 30) + agentFeeOf (10 ^ 30) + liquidityAmountOf (10 ^ 30) = 10 ^ 30) :=
  ⟨⟨by decide, (fee_split_exact 1 (by decide)).1⟩,
   ⟨by decide, (fee_split_exact 10000 (by decide)).1⟩,
   ⟨by positivity, (fee_split_exact (10 ^ 30) (by positivity)).1⟩⟩

/-- C5: for a positive token amount within the supply,
calculateSaleReturn returns the curve amount capped at the liquidity
reserve, as a normal result, and the returned amount never exceeds the
reserve. -/
theorem calculateSaleReturn_capped_at_reserve (s : CurveState) (tokenAmount : Nat)
    (h1 : 0 < tokenAmount) (h2 : tokenAmount ≤ s.totalSupply) :
    calculateSaleReturn s tokenAmount =
      Except.ok (min (tokenAmount * getCurrentPrice s / 10 ^ 18) s.liquidityReserve) ∧
    ∀ e, calculateSaleReturn s tokenAmount = Except.ok e → e ≤ s.liquidityReserve := by
  have hmain : calculateSaleReturn s tokenAmount =
      Except.ok (min (tokenAmount * getCurrentPrice s / 10 ^ 18) s.liquidityReserve) := by
    unfold calculateSaleReturn
    rw [if_neg (by simp [Nat.pos_iff_ne_zero.mp h1]), if_neg (by omega)]
    show Except.ok (if s.liquidityReserve < tokenAmount * getCurrentPrice s / 10 ^ 18
        then s.liquidityReserve else tokenAmount * getCurrentPrice s / 10 ^ 18) = _
    rcases Nat.lt_or_ge s.liquidityReserve (tokenAmount * getCurrentPrice s / 10 ^ 18) with hc | hc
    · rw [if_pos hc, min_eq_right (Nat.le_of_lt hc)]
    · rw [if_neg (Nat.not_lt.mpr hc), min_eq_left hc]
  refine ⟨hmain, ?_⟩
  intro e he
  rw [hmain] at he
  cases he
  exact min_le_right _ _

/-- A curve state with five tokens outstanding and a nearly drained
reserve, for the C5 witness. -/
def saleDemoState : CurveState :=
  { quorumMembers := [1, 2, 3]
    balances := [(5, 5 * 10 ^ 18)]
    totalSupply := 5 * 10 ^ 18
    totalETHRaised := 100
    liquidityReserve := 3
    graduated := false
    ethBalance := 10 }

/-- Witness for C5: selling one token against a reserve of 3 wei yields
the capped reserve amount, not the larger curve amount. -/
theorem calculateSaleReturn_capped_at_reserve_witness :
    (0 : Nat) < 10 ^ 18 ∧ 10 ^ 18 ≤ saleDemoState.totalSupply ∧
    calculateSaleReturn saleDemoState (10 ^ 18) = Except.ok 3 := by
  refine ⟨by positivity, by decide, ?_⟩
  rw [(calculateSaleReturn_capped_at_reserve saleDemoState (10 ^ 18) (by positivity) (by decide)).1]
  congr 1

/-- Effect of a successful buy from a non-graduated state: the full ETH
input joins totalETHRaised, exactly the fee remainder joins the reserve,
and graduation happens exactly when the new total reaches the
threshold.  The contract balance gains the input minus the platform fee,
and additionally pays the whole reserve into the pool on graduation. -/
theorem buy_ok_spec (s : CurveState) (sender ethIn : Nat) (hg : s.graduated = false) :
    ∀ s1, buy s sender ethIn = Except.ok s1 →
      s1.totalETHRaised = s.totalETHRaised + ethIn ∧
      s1.liquidityReserve = s.liquidityReserve + liquidityAmountOf ethIn ∧
      s1.quorumMembers = s.quorumMembers ∧
      (s1.graduated = true ↔ GRADUATION_THRESHOLD ≤ s.totalETHRaised + ethIn) ∧
      (s1.graduated = false → s1.ethBalance = s.ethBalance + ethIn - platformFeeOf ethIn) ∧
      (s1.graduated = true →
        s1.ethBalance + (s.liquidityReserve + liquidityAmountOf ethIn)
          = s.ethBalance + ethIn - platformFeeOf ethIn ∧
        s.liquidityReserve + liquidityAmountOf ethIn ≤ s.ethBalance + ethIn - platformFeeOf ethIn) := by
  intro s1 hb
  unfold buy at hb
  dsimp only at hb
  split at hb
  next h => rw [hg] at h; exact Bool.noConfusion h
  next =>
    split at hb
    next => exact Except.noConfusion hb
    next =>
      split at hb
      next => exact Except.noConfusion hb
      next =>
        split at hb
        next hcond =>
          split at hb
          next => exact Except.noConfusion hb
          next hguard =>
            have hs1 := Except.ok.inj hb
            subst hs1
            refine ⟨rfl, rfl, rfl, ⟨fun _ => hcond.1, fun _ => rfl⟩, ?_, ?_⟩
            · intro hfalse; exact Bool.noConfusion hfalse
            · intro _
              have hle : s.liquidityReserve + liquidityAmountOf ethIn
                  ≤ s.ethBalance + ethIn - platformFeeOf ethIn := Nat.not_lt.mp hguard
              refine ⟨?_, hle⟩
              show s.ethBalance + ethIn - platformFeeOf ethIn
                  - (s.liquidityReserve + liquidityAmountOf ethIn)
                  + (s.liquidityReserve + liquidityAmountOf ethIn)
                  = s.ethBalance + ethIn - platformFeeOf ethIn
              omega
        next hcond =>
          have hs1 := Except.ok.inj hb
          subst hs1
          refine ⟨rfl, rfl, rfl, ?_, fun _ => rfl, ?_⟩
          · rw [hg]
            simp only [Bool.false_eq_true, false_iff]
            intro hth
            exact hcond ⟨hth, hg⟩
          · intro htrue
            rw [hg] at htrue
            exact Bool.noConfusion htrue

/-- Effect of a successful sell: only possible before graduation, leaves
totalETHRaised and the flag alone, and removes the same ETH amount, at
most the reserve, from both the reserve and the contract balance. -/
theorem sell_ok_spec (s : CurveState) (sender tokenAmount : Nat) :
    ∀ s1, sell s sender tokenAmount = Except.ok s1 →
      s.graduated = false ∧
      s1.graduated = false ∧
      s1.totalETHRaised = s.totalETHRaised ∧
      s1.quorumMembers = s.quorumMembers ∧
      ∃ e, e ≤ s.liquidityReserve ∧ e ≤ s.ethBalance ∧
        s1.liquidityReserve = s.liquidityReserve - e ∧
        s1.ethBalance = s.ethBalance - e := by
  intro s1 hb
  unfold sell at hb
  split at hb
  next => exact Except.noConfusion hb
  next hg =>
    have hgf : s.graduated = false := by
      cases hgg : s.graduated
      · rfl
      · exact absurd hgg hg
    split at hb
    next => exact Except.noConfusion hb
    next =>
      split at hb
      next => exact Except.noConfusion hb
      next =>
        split at hb
        next => exact Except.noConfusion hb
        next ethAmount heq =>
          split at hb
          next => exact Except.noConfusion hb
          next =>
            split at hb
            next => exact Except.noConfusion hb
            next hres =>
              split at hb
              next => exact Except.noConfusion hb
              next hbal =>
                have hs1 := Except.ok.inj hb
                subst hs1
                simp only [not_lt] at hres hbal
                exact ⟨hgf, hgf, rfl, rfl, ethAmount, hres, hbal, rfl, rfl⟩

/-- Effect of a successful claimAgentFees: the payout is the floored
equal share of the balance above the reserve, it is positive, it never
exceeds that unclaimed balance, and only the contract balance changes. -/
theorem claim_ok_spec (s : CurveState) (sender : Nat) :
    ∀ s1 p, claimAgentFees s sender = Except.ok (s1, p) →
      s.quorumMembers.contains sender = true ∧
      s.liquidityReserve ≤ s.ethBalance ∧
      p = (s.ethBalance - s.liquidityReserve) / s.quorumMembers.length ∧
      0 < p ∧
      p ≤ s.ethBalance - s.liquidityReserve ∧
      s1 = { s with ethBalance := s.ethBalance - p } := by
  intro s1 p hb
  unfold claimAgentFees at hb
  dsimp only at hb
  split at hb
  next => exact Except.noConfusion hb
  next hmem =>
    split at hb
    next => exact Except.noConfusion hb
    next hle =>
      split at hb
      next => exact Except.noConfusion hb
      next hpos =>
        split at hb
        next => exact Except.noConfusion hb
        next hfee =>
          injection hb with hpair
          injection hpair with h1 h2
          subst h1
          subst h2
          have hmem' : s.quorumMembers.contains sender = true := by
            cases hc : s.quorumMembers.contains sender
            · exact absurd hc hmem
            · rfl
          have hle' : s.liquidityReserve ≤ s.ethBalance := by
            simp only [not_lt] at hle
            exact hle
          have hfee' : (s.ethBalance - s.liquidityReserve) / s.quorumMembers.length ≠ 0 := by
            simpa using hfee
          exact ⟨hmem', hle', rfl, Nat.pos_of_ne_zero hfee', Nat.div_le_self _ _, rfl⟩

/-- Effect of a successful manual graduate(): only from a non-graduated,
threshold-reaching, solvent state, and the result is graduateStep. -/
theorem graduateExt_ok_spec (s : CurveState) :
    ∀ s1, graduateExt s = Except.ok s1 →
      s.graduated = false ∧
      s.liquidityReserve ≤ s.ethBalance ∧
      s1 = graduateStep s := by
  intro s1 hb
  unfold graduateExt at hb
  split at hb
  next => exact Except.noConfusion hb
  next hg =>
    have hgf : s.graduated = false := by
      cases hgg : s.graduated
      · rfl
      · exact absurd hgg hg
    split at hb
    next => exact Except.noConfusion hb
    next =>
      split at hb
      next => exact Except.noConfusion hb
      next hbal =>
        have hs1 := Except.ok.inj hb
        simp only [not_lt] at hbal
        exact ⟨hgf, hbal, hs1.symm⟩

/-- Calls from a graduated state revert immediately for buy, sell and
graduate(); only claimAgentFees can still run, and it does not touch the
flag: no call ever resets graduated. -/
theorem applyOp_graduated_mono (s : CurveState) (op : Op) (h : s.graduated = true) :
    (applyOp s op).graduated = true := by
  cases op with
  | buy a v =>
      cases hb : buy s a v with
      | ok s1 =>
          have := buy_ok_spec s a v
          unfold buy at hb
          rw [h] at hb
          simp at hb
      | error e => simp [applyOp, hb, h]
  | sell a t =>
      cases hb : sell s a t with
      | ok s1 =>
          rcases sell_ok_spec s a t s1 hb with ⟨hgf, _⟩
          rw [h] at hgf
          exact Bool.noConfusion hgf
      | error e => simp [applyOp, hb, h]
  | claim a =>
      cases hb : claimAgentFees s a with
      | ok pr =>
          rcases claim_ok_spec s a pr.1 pr.2 (by rw [hb]) with ⟨_, _, _, _, _, hs1⟩
          simp only [applyOp, hb]
          rw [hs1, h]
      | error e => simp [applyOp, hb, h]
  | graduateOp =>
      cases hb : graduateExt s with
      | ok s1 =>
          rcases graduateExt_ok_spec s s1 hb with ⟨hgf, _, _⟩
          rw [h] at hgf
          exact Bool.noConfusion hgf
      | error e => simp [applyOp, hb, h]

/-- Once graduated, every later trace keeps the flag set. -/
theorem runOps_graduated_mono (ops : List Op) :
    ∀ s : CurveState, s.graduated = true → (runOps s ops).graduated = true := by
  induction ops with
  | nil => intro s h; exact h
  | cons op ops ih =>
      intro s h
      exact ih (applyOp s op) (applyOp_graduated_mono s op h)

/-- C3: graduation is exactly-once and one-way.  From a graduated state,
buy and sell revert with the already-graduated error (a revert leaves
the state unchanged), and no operation of any trace ever clears the
flag.  From a non-graduated state a successful buy adds its full input
to totalETHRaised and ends graduated exactly when the new total reaches
GRADUATION_THRESHOLD, so the graduation routine runs at the first buy
that reaches the threshold and at no later call; a successful sell never
graduates and never changes totalETHRaised. -/
theorem buy_graduation_once_one_way (s : CurveState)
    (sender ethIn seller tokenAmount : Nat) (ops : List Op) :
    (s.graduated = true →
      buy s sender ethIn = Except.error CurveErr.alreadyGraduated ∧
      sell s seller tokenAmount = Except.error CurveErr.alreadyGraduated ∧
      (runOps s ops).graduated = true) ∧
    (s.graduated = false → ∀ s1, buy s sender ethIn = Except.ok s1 →
      s1.totalETHRaised = s.totalETHRaised + ethIn ∧
      (s1.graduated = true ↔ GRADUATION_THRESHOLD ≤ s1.totalETHRaised)) ∧
    (s.graduated = false → ∀ s1, sell s seller tokenAmount = Except.ok s1 →
      s1.graduated = false ∧ s1.totalETHRaised = s.totalETHRaised) := by
  refine ⟨?_, ?_, ?_⟩
  · intro h
    refine ⟨?_, ?_, runOps_graduated_mono ops s h⟩
    · unfold buy; rw [h]; rfl
    · unfold sell; rw [h]; rfl
  · intro hg s1 hb
    rcases buy_ok_spec s sender ethIn hg s1 hb with ⟨hraised, _, _, hiff, _, _⟩
    rw [hraised]
    exact ⟨rfl, hiff⟩
  · intro hg s1 hb
    rcases sell_ok_spec s seller tokenAmount s1 hb with ⟨_, hgf, hraised, _, _⟩
    exact ⟨hgf, hraised⟩

/-- A graduated contract state, for the C3 witness. -/
def gradDemoState : CurveState :=
  { quorumMembers := [1, 2, 3]
    balances := [(4, 10 ^ 24)]
    totalSupply := 10 ^ 24
    totalETHRaised := 10 * 10 ^ 18
    liquidityReserve := 6 * 10 ^ 18
    graduated := true
    ethBalance := 10 ^ 18 }

/-- The state after the deployment buy of exactly 10 ether, which is the
first purchase to reach the graduation threshold. -/
def crossingBuyPost : CurveState :=
  applyOp (deployState [1, 2, 3]) (Op.buy 4 (10 * 10 ^ 18))

/-- Witness for C3: on a graduated state buy and sell revert and a trace
keeps the flag; the deployment buy of 10 ether graduates exactly at the
threshold crossing. -/
theorem buy_graduation_once_one_way_witness :
    (buy gradDemoState 4 5 = Except.error CurveErr.alreadyGraduated ∧
      sell gradDemoState 4 5 = Except.error CurveErr.alreadyGraduated ∧
      (runOps gradDemoState [Op.sell 4 5, Op.buy 4 5]).graduated = true) ∧
    (crossingBuyPost.totalETHRaised = (deployState [1, 2, 3]).totalETHRaised + 10 * 10 ^ 18 ∧
      (crossingBuyPost.graduated = true ↔ GRADUATION_THRESHOLD ≤ crossingBuyPost.totalETHRaised)) := by
  constructor
  · exact (buy_graduation_once_one_way gradDemoState 4 5 4 5 [Op.sell 4 5, Op.buy 4 5]).1 rfl
  · exact (buy_graduation_once_one_way (deployState [1, 2, 3]) 4 (10 * 10 ^ 18) 4 5 []).2.1
      rfl crossingBuyPost (by decide)

/-- Every call preserves liquidityReserve ≤ totalETHRaised. -/
theorem applyOp_reserve_le_raised (s : CurveState) (op : Op)
    (h : s.liquidityReserve ≤ s.totalETHRaised) :
    (applyOp s op).liquidityReserve ≤ (applyOp s op).totalETHRaised := by
  cases op with
  | buy a v =>
      cases hb : buy s a v with
      | ok s1 =>
          cases hg : s.graduated with
          | true =>
              unfold buy at hb
              rw [hg] at hb
              simp at hb
          | false =>
              rcases buy_ok_spec s a v hg s1 hb with ⟨hraised, hres, _⟩
              have hv := fee_sum v
              simp only [applyOp, hb]
              rw [hraised, hres]
              omega
      | error e => simp only [applyOp, hb]; exact h
  | sell a t =>
      cases hb : sell s a t with
      | ok s1 =>
          rcases sell_ok_spec s a t s1 hb with ⟨_, _, hraised, _, e, he, _, hres, _⟩
          simp only [applyOp, hb]
          rw [hraised, hres]
          omega
      | error e => simp only [applyOp, hb]; exact h
  | claim a =>
      cases hb : claimAgentFees s a with
      | ok pr =>
          rcases claim_ok_spec s a pr.1 pr.2 (by rw [hb]) with ⟨_, _, _, _, _, hs1⟩
          simp only [applyOp, hb]
          rw [hs1]
          exact h
      | error e => simp only [applyOp, hb]; exact h
  | graduateOp =>
      cases hb : graduateExt s with
      | ok s1 =>
          rcases graduateExt_ok_spec s s1 hb with ⟨_, _, hs1⟩
          simp only [applyOp, hb]
          rw [hs1]
          exact h
      | error e => simp only [applyOp, hb]; exact h

/-- The reserve bound propagates along any trace. -/
theorem runOps_reserve_le_raised (ops : List Op) :
    ∀ s : CurveState, s.liquidityReserve ≤ s.totalETHRaised →
      (runOps s ops).liquidityReserve ≤ (runOps s ops).totalETHRaised := by
  induction ops with
  | nil => intro s h; exact h
  | cons op ops ih =>
      intro s h
      exact ih (applyOp s op) (applyOp_reserve_le_raised s op h)

/-- C10: from deployment, every trace of calls keeps
liquidityReserve ≤ totalETHRaised; a successful buy adds the full input
to totalETHRaised but only the fee remainder, at most the input, to the
reserve; a successful sell leaves totalETHRaised alone and only lowers
the reserve, by an amount the reserve covers. -/
theorem curve_reserve_le_raised (members : List Nat) (ops : List Op)
    (s : CurveState) (sender ethIn seller tokenAmount : Nat) :
    ((runOps (deployState members) ops).liquidityReserve
      ≤ (runOps (deployState members) ops).totalETHRaised) ∧
    (s.graduated = false → ∀ s1, buy s sender ethIn = Except.ok s1 →
      s1.totalETHRaised = s.totalETHRaised + ethIn ∧
      s1.liquidityReserve = s.liquidityReserve + liquidityAmountOf ethIn ∧
      liquidityAmountOf ethIn ≤ ethIn) ∧
    (∀ s1, sell s seller tokenAmount = Except.ok s1 →
      s1.totalETHRaised = s.totalETHRaised ∧
      ∃ e, e ≤ s.liquidityReserve ∧ s1.liquidityReserve = s.liquidityReserve - e) := by
  refine ⟨runOps_reserve_le_raised ops (deployState members) (Nat.le_refl 0), ?_, ?_⟩
  · intro hg s1 hb
    rcases buy_ok_spec s sender ethIn hg s1 hb with ⟨hraised, hres, _⟩
    have hv := fee_sum ethIn
    exact ⟨hraised, hres, by omega⟩
  · intro s1 hb
    rcases sell_ok_spec s seller tokenAmount s1 hb with ⟨_, _, hraised, _, e, he, _, hres, _⟩
    exact ⟨hraised, e, he, hres⟩

/-- Witness for C10 on a concrete trace: a 25 wei buy followed by a sell
of a million curve tokens, starting from deployment. -/
theorem curve_reserve_le_raised_witness :
    ((runOps (deployState [1, 2, 3]) [Op.buy 4 25, Op.sell 4 (10 ^ 6)]).liquidityReserve
      ≤ (runOps (deployState [1, 2, 3]) [Op.buy 4 25, Op.sell 4 (10 ^ 6)]).totalETHRaised) ∧
    (applyOp (deployState [1, 2, 3]) (Op.buy 4 25)).totalETHRaised
      = (deployState [1, 2, 3]).totalETHRaised + 25 := by
  constructor
  · exact (curve_reserve_le_raised [1, 2, 3] [Op.buy 4 25, Op.sell 4 (10 ^ 6)]
      (deployState [1, 2, 3]) 4 25 4 (10 ^ 6)).1
  · exact ((curve_reserve_le_raised [1, 2, 3] [] (deployState [1, 2, 3]) 4 25 4 (10 ^ 6)).2.1
      rfl (applyOp (deployState [1, 2, 3]) (Op.buy 4 25)) (by decide)).1

/-- Accounting invariant tying the contract balance to the agent fees
accrued by buys and paid out by claims: before graduation the balance is
the reserve plus the unclaimed agent fees, after graduation (the reserve
having been moved into the pool) it is the unclaimed agent fees alone,
and payouts never outrun accruals. -/
def FeeInv (s : CurveState) (claimed accrued : Nat) : Prop :=
  claimed ≤ accrued ∧
  (s.graduated = false → claimed + s.ethBalance = s.liquidityReserve + accrued) ∧
  (s.graduated = true → claimed + s.ethBalance = accrued)

theorem runAcc_feeInv (ops : List Op) :
    ∀ (s : CurveState) (claimed accrued : Nat), FeeInv s claimed accrued →
      FeeInv (runAcc s claimed accrued ops).1
        (runAcc s claimed accrued ops).2.1 (runAcc s claimed accrued ops).2.2 := by
  induction ops with
  | nil => intro s c a h; exact h
  | cons op ops ih =>
      intro s c a h
      rcases h with ⟨hca, hfalse, htrue⟩
      cases op with
      | buy x v =>
          cases hb : buy s x v with
          | ok s1 =>
              have hstep : runAcc s c a (Op.buy x v :: ops)
                  = runAcc s1 c (a + agentFeeOf v) ops := by
                simp [runAcc, hb]
              rw [hstep]
              apply ih
              cases hg : s.graduated with
              | true =>
                  unfold buy at hb
                  rw [hg] at hb
                  simp at hb
              | false =>
                  rcases buy_ok_spec s x v hg s1 hb with ⟨_, hres, _, _, hbf, hbt⟩
                  have hpre := hfalse hg
                  have hsum := fee_sum v
                  have hparts := fee_parts_le v
                  refine ⟨by omega, ?_, ?_⟩
                  · intro hg1
                    rw [hbf hg1, hres]
                    omega
                  · intro hg1
                    rcases hbt hg1 with ⟨hbal, hble⟩
                    omega
          | error e =>
              have hstep : runAcc s c a (Op.buy x v :: ops) = runAcc s c a ops := by
                simp [runAcc, hb]
              rw [hstep]
              exact ih s c a ⟨hca, hfalse, htrue⟩
      | sell x t =>
          have hstep : runAcc s c a (Op.sell x t :: ops)
              = runAcc (applyOp s (Op.sell x t)) c a ops := rfl
          rw [hstep]
          apply ih
          cases hb : sell s x t with
          | ok s1 =>
              rcases sell_ok_spec s x t s1 hb with ⟨hg, hg1, _, _, e, her, heb, hres, hbal⟩
              have hpre := hfalse hg
              simp only [applyOp, hb]
              refine ⟨hca, ?_, ?_⟩
              · intro _
                rw [hres, hbal]
                omega
              · intro hcontra
                rw [hg1] at hcontra
                exact Bool.noConfusion hcontra
          | error e =>
              simp only [applyOp, hb]
              exact ⟨hca, hfalse, htrue⟩
      | claim x =>
          cases hb : claimAgentFees s x with
          | ok pr =>
              cases pr with
              | mk s1 paid =>
                  have hstep : runAcc s c a (Op.claim x :: ops)
                      = runAcc s1 (c + paid) a ops := by
                    simp [runAcc, hb]
                  rw [hstep]
                  apply ih
                  rcases claim_ok_spec s x s1 paid hb with ⟨_, hrb, hp, hppos, hple, hs1⟩
                  subst hs1
                  cases hg : s.graduated with
                  | false =>
                      have hpre := hfalse hg
                      refine ⟨by omega, ?_, ?_⟩
                      · intro _
                        show c + paid + (s.ethBalance - paid) = s.liquidityReserve + a
                        omega
                      · intro hcontra
                        exact Bool.noConfusion hcontra
                  | true =>
                      have hpre := htrue hg
                      refine ⟨by omega, ?_, ?_⟩
                      · intro hcontra
                        exact Bool.noConfusion hcontra
                      · intro _
                        show c + paid + (s.ethBalance - paid) = a
                        omega
          | error e =>
              have hstep : runAcc s c a (Op.claim x :: ops) = runAcc s c a ops := by
                simp [runAcc, hb]
              rw [hstep]
              exact ih s c a ⟨hca, hfalse, htrue⟩
      | graduateOp =>
          have hstep : runAcc s c a (Op.graduateOp :: ops)
              = runAcc (applyOp s Op.graduateOp) c a ops := rfl
          rw [hstep]
          apply ih
          cases hb : graduateExt s with
          | ok s1 =>
              rcases graduateExt_ok_spec s s1 hb with ⟨hg, hrb, hs1⟩
              have hpre := hfalse hg
              simp only [applyOp, hb]
              subst hs1
              refine ⟨hca, ?_, ?_⟩
              · intro hcontra
                exact Bool.noConfusion hcontra
              · intro _
                show c + (s.ethBalance - s.liquidityReserve) = a
                omega
          | error e =>
              simp only [applyOp, hb]
              exact ⟨hca, hfalse, htrue⟩

/-- Reachable 25 wei purchase state: 18 wei balance, 16 wei reserve, so
2 wei of unclaimed agent fees against 3 members. -/
def c8State : CurveState := applyOp (deployState [1, 2, 3]) (Op.buy 4 25)

/-- Counterexample to C8 as stated: member 1 claims on a reachable state
whose unclaimed agent-fee balance is 2 (nonzero), so the claim predicts
a successful payout of floor(2 / 3) = 0, but the contract reverts with
the separate insufficient-fees require instead. -/
theorem claimAgentFees_zero_share_counterexample :
    c8State.ethBalance - c8State.liquidityReserve = 2 ∧
    c8State.quorumMembers.contains 1 = true ∧
    claimAgentFees c8State 1 = Except.error CurveErr.insufficientFees := by
  decide

/-- C8 (amended): claimAgentFees fails with the not-a-quorum-member
error for outsiders; for a member it fails with no-fees-to-claim when
the balance above the reserve is zero, fails with insufficient-fees when
that unclaimed balance is positive but the floored equal share is zero,
and otherwise pays out exactly the floored equal share, which never
exceeds the unclaimed balance; over any trace from deployment the total
paid out by claims never exceeds the agent fees accrued by buys. -/
theorem claimAgentFees_contract (s : CurveState) (sender : Nat) (members : List Nat)
    (ops : List Op) (h : s.liquidityReserve ≤ s.ethBalance) :
    (s.quorumMembers.contains sender = false →
      claimAgentFees s sender = Except.error CurveErr.notQuorumMember) ∧
    (s.quorumMembers.contains sender = true →
      s.ethBalance - s.liquidityReserve = 0 →
      claimAgentFees s sender = Except.error CurveErr.noFeesToClaim) ∧
    (s.quorumMembers.contains sender = true →
      0 < s.ethBalance - s.liquidityReserve →
      (s.ethBalance - s.liquidityReserve) / s.quorumMembers.length = 0 →
      claimAgentFees s sender = Except.error CurveErr.insufficientFees) ∧
    (s.quorumMembers.contains sender = true →
      0 < (s.ethBalance - s.liquidityReserve) / s.quorumMembers.length →
      claimAgentFees s sender = Except.ok
        ({ s with ethBalance := s.ethBalance
            - (s.ethBalance - s.liquidityReserve) / s.quorumMembers.length },
          (s.ethBalance - s.liquidityReserve) / s.quorumMembers.length) ∧
      (s.ethBalance - s.liquidityReserve) / s.quorumMembers.length
        ≤ s.ethBalance - s.liquidityReserve) ∧
    (runAcc (deployState members) 0 0 ops).2.1 ≤ (runAcc (deployState members) 0 0 ops).2.2 := by
  have hnl : ¬ (s.ethBalance < s.liquidityReserve) := Nat.not_lt.mpr h
  refine ⟨?_, ?_, ?_, ?_, ?_⟩
  · intro hm
    simp [claimAgentFees, hm]
    intro hmem
    exact absurd hmem (by simpa using hm)
  · intro hm h0
    simp [claimAgentFees, hm, hnl, h0]
    simpa using hm
  · intro hm hgap hfz
    have hne := Nat.pos_iff_ne_zero.mp hgap
    simp [claimAgentFees, hm, hnl, hne, hfz]
    simpa using hm
  · intro hm hpos
    have hfne := Nat.pos_iff_ne_zero.mp hpos
    have hgne : s.ethBalance - s.liquidityReserve ≠ 0 := by
      intro h0
      rw [h0] at hfne
      simp at hfne
    constructor
    · simp [claimAgentFees, hm, hnl, hgne, hfne]
      simpa using hm
    · exact Nat.div_le_self _ _
  · have hbase : FeeInv (deployState members) 0 0 := by
      refine ⟨Nat.le_refl 0, fun _ => rfl, fun hc => Bool.noConfusion hc⟩
    exact (runAcc_feeInv ops (deployState members) 0 0 hbase).1

/-- Reachable 30 wei purchase state: 21 wei balance, 18 wei reserve, so
3 wei of unclaimed agent fees against 3 members and a share of 1. -/
def c8OkState : CurveState := applyOp (deployState [1, 2, 3]) (Op.buy 4 30)

/-- Witness for C8: on the 30 wei purchase state the share is 1 wei and
member 1 is paid exactly that; the trace bound holds on a concrete
buy-then-claim trace. -/
theorem claimAgentFees_contract_witness :
    c8OkState.liquidityReserve ≤ c8OkState.ethBalance ∧
    claimAgentFees c8OkState 1 = Except.ok
      ({ c8OkState with ethBalance := c8OkState.ethBalance
          - (c8OkState.ethBalance - c8OkState.liquidityReserve) / c8OkState.quorumMembers.length },
        (c8OkState.ethBalance - c8OkState.liquidityReserve) / c8OkState.quorumMembers.length) ∧
    (runAcc (deployState [1, 2, 3]) 0 0 [Op.buy 4 30, Op.claim 1]).2.1
      ≤ (runAcc (deployState [1, 2, 3]) 0 0 [Op.buy 4 30, Op.claim 1]).2.2 := by
  refine ⟨by decide, ?_, ?_⟩
  · exact ((claimAgentFees_contract c8OkState 1 [1, 2, 3] [] (by decide)).2.2.2.1
      (by decide) (by decide)).1
  · exact (claimAgentFees_contract c8OkState 1 [1, 2, 3] [Op.buy 4 30, Op.claim 1]
      (by decide)).2.2.2.2

end HeadlessMarkets
